import Mathlib

/-!
Verification development for the AutoAgent runner (`scripts/run_prompts.py`).

The Python source is shallowly embedded below.  Subprocess calls and
environment variables are modelled by an explicit environment record
(`GitEnv`, `ExecEnv`, `MainEnv`): each field holds the observable result of
one external interaction (the return code and standard output of one
subprocess invocation, the value of one environment variable, the content of
one file).  Python exceptions are modelled with `Except`; `sys.exit(n)` is
modelled by a dedicated constructor of the result type.
-/

deriving instance DecidableEq for Except

namespace RunPrompts

/-- Model of Python `str.split('\n')`: splits a character list at every
newline, keeping empty segments (so the empty input yields one empty
segment, as in Python). -/
def splitNl : List Char → List (List Char)
  | [] => [[]]
  | c :: rest =>
    match splitNl rest with
    | [] => [[]]
    | g :: gs => if c = '\n' then [] :: g :: gs else (c :: g) :: gs

/-- Model of Python `str.strip()` on a character list: drop leading and
trailing whitespace. -/
def stripChars (l : List Char) : List Char :=
  ((l.dropWhile Char.isWhitespace).reverse.dropWhile Char.isWhitespace).reverse

/-- Model of Python `str.strip()`. -/
def pyStrip (s : String) : String :=
  String.mk (stripChars s.toList)

/-- Embedding of the idiom `[f.strip() for f in out.split('\n') if f.strip()]`
used by every change-detection strategy: split the command output on
newlines, strip each entry, and keep the non-empty ones. -/
def splitStrip (s : String) : List String :=
  ((splitNl s.toList).map (fun l => String.mk (stripChars l))).filter (fun f => f ≠ "")

/-- Number of tokens produced by Python `str.split()` (split on whitespace
runs, discarding empty tokens).  The boolean argument records whether the
previous character was inside a token. -/
def wsTokenCount : List Char → Bool → Nat
  | [], _ => 0
  | c :: rest, inTok =>
    if c.isWhitespace then wsTokenCount rest false
    else (if inTok then 0 else 1) + wsTokenCount rest true

/-- Observable result of one `subprocess.run` invocation. -/
structure CmdResult where
  returncode : Int
  stdout : String
deriving DecidableEq

/-- `subprocess.run(..., check=True)`: raises `CalledProcessError` when the
return code is non-zero, otherwise yields the captured standard output. -/
def runChecked (r : CmdResult) : Except Unit String :=
  if r.returncode = 0 then .ok r.stdout else .error ()

/-- Environment of `GitAnalyzer`: the observable outcome of every subprocess
invocation and environment-variable lookup its strategies can perform. -/
structure GitEnv where
  /-- `git fetch origin main:main` (`check=False`; its result is discarded
  by the source). -/
  fetch : CmdResult
  /-- `git merge-base HEAD main` (`check=False`). -/
  mergeBase : CmdResult
  /-- `git diff --name-only <merge_base> HEAD` (`check=True`). -/
  diffMergeBase : CmdResult
  /-- `git diff --name-only origin/main...HEAD` (`check=True`). -/
  diffThreeDot : CmdResult
  /-- `git diff --name-only origin/main..HEAD` (`check=True`). -/
  diffTwoDot : CmdResult
  /-- `os.environ.get('GITHUB_EVENT_NUMBER')`. -/
  prNumber : Option String
  /-- `os.environ.get('GITHUB_REPOSITORY')`. -/
  repo : Option String
  /-- `gh api repos/<repo>/pulls/<pr>/files --jq .[].filename` (`check=True`). -/
  ghApi : CmdResult
  /-- `git show --format=%P -s HEAD` (`check=True`). -/
  showHead : CmdResult
  /-- `git diff-tree --no-commit-id --name-only -r HEAD` (`check=True`). -/
  diffTree : CmdResult
  /-- `git diff --name-only HEAD~1 HEAD` (`check=True`). -/
  diffSingle : CmdResult
deriving DecidableEq

/-- Python falsiness of `os.environ.get(...)`: `None` or the empty string. -/
def envFalsy : Option String → Bool
  | none => true
  | some s => s = ""

/-- Strategy 1, `GitAnalyzer._try_merge_base`: best-effort fetch (result
discarded), then `git merge-base HEAD main` with `check=False`; on return
code 0, diff merge-base against HEAD (`check=True`); otherwise raise. -/
def try_merge_base (env : GitEnv) : Except Unit (List String) :=
  if env.mergeBase.returncode = 0 then
    (runChecked env.diffMergeBase).map splitStrip
  else
    .error ()

/-- Strategy 2, `GitAnalyzer._try_three_dot`. -/
def try_three_dot (env : GitEnv) : Except Unit (List String) :=
  (runChecked env.diffThreeDot).map splitStrip

/-- Strategy 3, `GitAnalyzer._try_two_dot`. -/
def try_two_dot (env : GitEnv) : Except Unit (List String) :=
  (runChecked env.diffTwoDot).map splitStrip

/-- Strategy 4, `GitAnalyzer._try_github_api`: raises when either of the two
environment variables is missing or empty, otherwise queries the API with
`check=True`. -/
def try_github_api (env : GitEnv) : Except Unit (List String) :=
  if envFalsy env.prNumber || envFalsy env.repo then .error ()
  else (runChecked env.ghApi).map splitStrip

/-- Strategy 5, `GitAnalyzer._try_merge_commit`: read HEAD's parent list; if
it has more than one whitespace-separated parent, list the files of the
merge, otherwise raise. -/
def try_merge_commit (env : GitEnv) : Except Unit (List String) :=
  match runChecked env.showHead with
  | .error _ => .error ()
  | .ok out =>
    if wsTokenCount (stripChars out.toList) false > 1 then
      (runChecked env.diffTree).map splitStrip
    else
      .error ()

/-- Strategy 6, `GitAnalyzer._try_single_commit`: diff HEAD~1 against HEAD
(`check=True`). -/
def try_single_commit (env : GitEnv) : Except Unit (List String) :=
  (runChecked env.diffSingle).map splitStrip

/-- The strategy list of `GitAnalyzer.get_changed_files`, in source order. -/
def strategyList (env : GitEnv) : List (Except Unit (List String)) :=
  [try_merge_base env, try_three_dot env, try_two_dot env,
   try_github_api env, try_merge_commit env, try_single_commit env]

/-- The `for strategy in strategies` loop of `get_changed_files`: a raising
strategy (`except Exception: continue`) and a strategy returning a falsy
(empty) list both fall through to the next strategy; the first non-empty
result is returned; when the list is exhausted the loop returns `[]`. -/
def runChain : List (Except Unit (List String)) → List String
  | [] => []
  | .error _ :: rest => runChain rest
  | .ok files :: rest => if files.isEmpty then runChain rest else files

/-- `GitAnalyzer.get_changed_files`. -/
def get_changed_files (env : GitEnv) : List String :=
  runChain (strategyList env)

/-- `GitAnalyzer.get_file_context`. -/
def get_file_context (env : GitEnv) (scope : String) : String :=
  if scope = "all" then
    "Analyze the entire codebase in this repository."
  else
    let changed_files := get_changed_files env
    if changed_files ≠ [] then
      "Focus ONLY on these files changed in this PR: " ++ String.intercalate " " changed_files
    else
      "No changed files detected. Analyze the current repository state."

/-- A strategy outcome that makes `get_changed_files` move on to the next
strategy: it raised, or it returned an empty list. -/
def failsOrEmpty : Except Unit (List String) → Bool
  | .error _ => true
  | .ok files => files.isEmpty

/-- The value the surrounding loop extracts from the terminal strategy: its
list on success, `[]` when it raised. -/
def okOrElse : Except Unit (List String) → List String
  | .ok files => files
  | .error _ => []

/-! ## `ResultManager` -/

/-- The sentinel text `ResultManager.add_result` stores in place of an empty
output. -/
def warning_sentinel : String :=
  "⚠️ Warning: No analysis results were returned for this rule. This may indicate a processing error or timeout."

/-- `ResultManager.add_result`: substitute the warning sentinel for an empty
output (the additional length-below-10 branch of the source only logs a
warning and does not change the stored data), then append one
`(rule, output)` record. -/
def add_result (results : List (String × String)) (rule_name output : String) :
    List (String × String) :=
  let output := if output = "" then warning_sentinel else output
  results ++ [(rule_name, output)]

/-! ## `AgentRunner.execute_agent` -/

/-- The keys of `AgentRunner.AGENT_CONFIG`. -/
def agentConfigKeys : List String :=
  ["cursor", "claude", "gemini", "codex", "amp", "opencode"]

/-- Outcome of the agent subprocess call inside `execute_agent`. -/
inductive AgentProcOutcome where
  /-- `subprocess.run` returned, with this return code, stdout and stderr. -/
  | completed (returncode : Int) (stdout stderr : String)
  /-- `subprocess.TimeoutExpired` was raised after 600 seconds. -/
  | timedOut
  /-- some other exception was raised by the invocation. -/
  | raised (msg : String)
deriving DecidableEq

/-- Environment of one `execute_agent` call: whether `which <cmd>` succeeds,
and what the agent subprocess does. -/
structure ExecEnv where
  whichOk : Bool
  outcome : AgentProcOutcome
deriving DecidableEq

/-- `AgentRunner.execute_agent`, tracking the returned string together with
whether the temporary prompt file created by the call is still on disk after
it returns.

Mirrors the source: the unsupported-agent and command-not-found returns
happen before `tempfile.NamedTemporaryFile(delete=False)` runs, so no file
is created there; afterwards a file is always created, `temp_file_path` is
overwritten with `None` in the claude/gemini/codex/amp/opencode branches,
and the `finally` block unlinks the file only when `temp_file_path` is still
set.  The second component of the result is `true` exactly when a file
created by this call remains on disk. -/
def execute_agent (agent : String) (cmd : String) (env : ExecEnv) : String × Bool :=
  if agent ∉ agentConfigKeys then
    ("Error: Unsupported agent: " ++ agent, false)
  else if !env.whichOk then
    ("Error: " ++ cmd ++ " not found. Please ensure it's installed or set install-agent: true",
     false)
  else
    -- temporary file created here with delete=False
    let temp_file_cleaned :=
      !(agent = "claude" ∨ agent = "gemini" ∨ agent = "codex" ∨ agent = "amp" ∨
        agent = "opencode")
    let ret :=
      match env.outcome with
      | .completed rc out err =>
        if rc = 0 then pyStrip out
        else
          "Error: " ++ "Agent execution failed with return code " ++ toString rc ++
            (if err ≠ "" then ": " ++ err else "")
      | .timedOut => "Error: Agent execution timed out after 600 seconds"
      | .raised msg => "Error: Failed to execute " ++ agent ++ ": " ++ msg
    (ret, !temp_file_cleaned)

/-! ## `main` -/

/-- `PromptBuilder.build_full_prompt`. -/
def build_full_prompt (base file_context rule_content comment : String) : String :=
  base ++ "\n\n## Analysis Scope\n" ++ file_context ++
    "\n\nYou have access to git commands to see changes:\n" ++
    "- git diff --name-only origin/main..HEAD (or HEAD~1 HEAD)\n" ++
    "- git diff origin/main..HEAD -- <filename>\n" ++
    "- git show --name-only HEAD\n\nUse these commands as needed for your analysis.\n\n" ++
    rule_content ++ "\n\n" ++ comment

/-- Environment of `main`: its command-line arguments plus the observable
behaviour of its collaborators (file system, YAML/JSON parser, agent
subprocess).  `ruleTemplate r = none` models `load_rule_prompt` raising
`FileNotFoundError`; `customFile p = none` models
`CustomFileProcessor.process_file` raising `ValueError`; `agentResult`
models `AgentRunner.execute_agent`, which catches every exception internally
and always returns a string. -/
structure MainEnv where
  rules_arg : String
  custom_prompt : String
  agent : String
  scope : String
  custom_files_arg : String
  /-- `parse_input_list` (YAML/JSON collaborator). -/
  parseList : String → List String
  /-- `PromptBuilder.load_rule_prompt`: `none` = `FileNotFoundError`. -/
  ruleTemplate : String → Option String
  /-- `PromptBuilder.load_base_prompt`: `none` = `FileNotFoundError`. -/
  base_prompt : Option String
  /-- `PromptBuilder.load_comment_prompt`: `none` = `FileNotFoundError`. -/
  comment_prompt : Option String
  /-- `CustomFileProcessor.process_file`: content and rule name, or `none`
  when validation raises. -/
  customFile : String → Option (String × String)
  /-- `Path(p).stem`, used for the failure slot of an invalid custom file. -/
  stem : String → String
  /-- result string of `AgentRunner.execute_agent` on a given full prompt. -/
  agentResult : String → String
  git : GitEnv

/-- Result of a run of `main`: either it reached the end (exit code 0,
`save_results` writes the records, with this many agent invocations), or it
called `sys.exit`/died on an uncaught exception part-way through (nothing is
persisted; the accumulated in-memory records and agent-call count at that
point are carried for inspection). -/
inductive LoopResult where
  | ok (results : List (String × String)) (calls : Nat)
  | exited (code : Nat) (results : List (String × String)) (calls : Nat)
deriving DecidableEq

/-- The `for rule in rules_list` loop of `main`.  An empty rule name is
skipped; a missing rule template (`FileNotFoundError` from
`load_rule_prompt`) hits the dedicated `except FileNotFoundError` handler,
which calls `sys.exit(1)`; otherwise the agent runs and one result is
recorded.  (The generic `except Exception` handler, which records
`Error: ...` under the rule's name and continues, is unreachable in this
model because `execute_agent` and `add_result` are total.) -/
def processRules (env : MainEnv) (base comment file_context : String) :
    List String → List (String × String) → Nat → LoopResult
  | [], acc, calls => .ok acc calls
  | rule :: rest, acc, calls =>
    if rule = "" then
      processRules env base comment file_context rest acc calls
    else
      match env.ruleTemplate rule with
      | none => .exited 1 acc calls
      | some rule_prompt =>
        let full_prompt := build_full_prompt base file_context rule_prompt comment
        let output := env.agentResult full_prompt
        processRules env base comment file_context rest (add_result acc rule output) (calls + 1)

/-- The `for custom_file in custom_files_list` loop of `main`: an invalid
custom file is a per-item failure recorded under the file's stem, and the
loop continues. -/
def processCustomFiles (env : MainEnv) (base comment file_context : String) :
    List String → List (String × String) → Nat → List (String × String) × Nat
  | [], acc, calls => (acc, calls)
  | cf :: rest, acc, calls =>
    if cf = "" then
      processCustomFiles env base comment file_context rest acc calls
    else
      match env.customFile cf with
      | none =>
        processCustomFiles env base comment file_context rest
          (add_result acc (env.stem cf) ("Error: Custom file validation failed for " ++ cf))
          calls
      | some (content, rule_name) =>
        let full_prompt := build_full_prompt base file_context content comment
        let output := env.agentResult full_prompt
        processCustomFiles env base comment file_context rest
          (add_result acc rule_name output) (calls + 1)

/-- Everything `main` does after its two input validations: agent setup
(`setup_agent_environment` raises `ValueError` on an unknown agent, which is
uncaught and terminates the process with a non-zero code), file-context
computation, loading of the base and comment templates (missing ones are
fatal, exit code 1), then the three processing phases. -/
def main_after_validation (env : MainEnv) : LoopResult :=
  if env.agent ∉ agentConfigKeys then .exited 1 [] 0
  else
    let file_context := get_file_context env.git env.scope
    match env.base_prompt, env.comment_prompt with
    | some base, some comment =>
      match processRules env base comment file_context (env.parseList env.rules_arg) [] 0 with
      | .exited code acc calls => .exited code acc calls
      | .ok acc calls =>
        let step := processCustomFiles env base comment file_context
          (env.parseList env.custom_files_arg) acc calls
        if env.custom_prompt ≠ "" then
          let full_prompt := build_full_prompt base file_context env.custom_prompt comment
          .ok (add_result step.1 "custom" (env.agentResult full_prompt)) (step.2 + 1)
        else
          .ok step.1 step.2
    | _, _ => .exited 1 [] 0

/-- `main`: the no-work check (all three inputs falsy, i.e. empty strings)
and the 5000-character custom-prompt limit both call `sys.exit(1)` before
any agent invocation; otherwise the run proceeds. -/
def main_model (env : MainEnv) : LoopResult :=
  if env.rules_arg = "" ∧ env.custom_prompt = "" ∧ env.custom_files_arg = "" then
    .exited 1 [] 0
  else if env.custom_prompt.length > 5000 then
    .exited 1 [] 0
  else
    main_after_validation env

/-! ## Lemmas about the strategy loop -/

theorem runChain_cons_skip (o : Except Unit (List String))
    (rest : List (Except Unit (List String))) (h : failsOrEmpty o = true) :
    runChain (o :: rest) = runChain rest := by
  cases o with
  | error e => rfl
  | ok files =>
    simp only [failsOrEmpty] at h
    simp only [runChain, h, if_true]

theorem runChain_append_skip (pre rest : List (Except Unit (List String)))
    (h : ∀ o ∈ pre, failsOrEmpty o = true) :
    runChain (pre ++ rest) = runChain rest := by
  induction pre with
  | nil => rfl
  | cons o pre ih =>
    rw [List.cons_append, runChain_cons_skip _ _ (h o (by simp))]
    exact ih (fun o ho => h o (by simp [ho]))

theorem runChain_cons_found (files : List String)
    (rest : List (Except Unit (List String))) (h : files ≠ []) :
    runChain (.ok files :: rest) = files := by
  cases files with
  | nil => exact absurd rfl h
  | cons a t => rfl

theorem runChain_eq_nil_iff (outs : List (Except Unit (List String))) :
    runChain outs = [] ↔ ∀ o ∈ outs, failsOrEmpty o = true := by
  induction outs with
  | nil => simp [runChain]
  | cons o rest ih =>
    cases o with
    | error e => simp [runChain, List.forall_mem_cons, failsOrEmpty, ih]
    | ok files =>
      cases files with
      | nil => simp [runChain, List.forall_mem_cons, failsOrEmpty, ih]
      | cons a t => simp [runChain, List.forall_mem_cons, failsOrEmpty]

/-! ## Concrete environments used by witnesses and counterexamples -/

/-- A subprocess invocation that succeeds with the given standard output. -/
def rcOk (s : String) : CmdResult := { returncode := 0, stdout := s }

/-- A subprocess invocation that fails with return code 1. -/
def rcBad : CmdResult := { returncode := 1, stdout := "" }

/-- A repository state in which strategy 1 raises (no merge base) and
strategy 2 succeeds with two changed files. -/
def envStrat2 : GitEnv :=
  { fetch := rcBad, mergeBase := rcBad, diffMergeBase := rcBad,
    diffThreeDot := rcOk "a.py\nb.py\n", diffTwoDot := rcBad,
    prNumber := none, repo := none, ghApi := rcBad,
    showHead := rcBad, diffTree := rcBad, diffSingle := rcBad }

/-- A repository state in which every git command fails and the GitHub
environment variables are absent: all six strategies raise. -/
def envAllFail : GitEnv :=
  { fetch := rcBad, mergeBase := rcBad, diffMergeBase := rcBad,
    diffThreeDot := rcBad, diffTwoDot := rcBad,
    prNumber := none, repo := none, ghApi := rcBad,
    showHead := rcBad, diffTree := rcBad, diffSingle := rcBad }

/-- A repository state in which every git command succeeds with empty
output: strategies 1, 2, 3 and 6 complete without error and report no
changed files, while strategies 4 and 5 raise. -/
def envAllEmpty : GitEnv :=
  { fetch := rcOk "", mergeBase := rcOk "abc123", diffMergeBase := rcOk "",
    diffThreeDot := rcOk "", diffTwoDot := rcOk "",
    prNumber := none, repo := none, ghApi := rcOk "",
    showHead := rcOk "abc123", diffTree := rcOk "", diffSingle := rcOk "" }

/-! ## C1 -/

/-- C1: `get_changed_files` tries the six detection strategies strictly in
the source order merge-base, three-dot, two-dot, GitHub API, merge-commit,
single-commit (first conjunct, fixing the strategy list); whenever a prefix
of the outcome list consists only of strategies that raised or returned an
empty list and is followed by a strategy that ran without raising and
yielded a non-empty list, the function returns exactly that strategy's
result (second conjunct); and the outcomes of all strategies after the
winning one are irrelevant to the result, i.e. the winning strategy's list
is returned for every possible suffix, so no later strategy is consulted
(third conjunct). -/
theorem get_changed_files_first_nonempty (env : GitEnv)
    (pre suf : List (Except Unit (List String))) (files : List String)
    (horder : strategyList env = pre ++ .ok files :: suf)
    (hpre : ∀ o ∈ pre, failsOrEmpty o = true) (hne : files ≠ []) :
    strategyList env =
      [try_merge_base env, try_three_dot env, try_two_dot env,
       try_github_api env, try_merge_commit env, try_single_commit env] ∧
    get_changed_files env = files ∧
    (∀ suf2, runChain (pre ++ .ok files :: suf2) = files) := by
  refine ⟨rfl, ?_, ?_⟩
  · rw [get_changed_files, horder, runChain_append_skip _ _ hpre,
      runChain_cons_found _ _ hne]
  · intro suf2
    rw [runChain_append_skip _ _ hpre, runChain_cons_found _ _ hne]

/-- C1 witness: in `envStrat2`, strategy 1 raises and strategy 2 reports
`a.py` and `b.py`; the resolver returns exactly those files. -/
theorem get_changed_files_first_nonempty_witness :
    get_changed_files envStrat2 = ["a.py", "b.py"] :=
  (get_changed_files_first_nonempty envStrat2 [try_merge_base envStrat2]
    [try_two_dot envStrat2, try_github_api envStrat2,
     try_merge_commit envStrat2, try_single_commit envStrat2]
    ["a.py", "b.py"] (by decide) (by decide) (by decide)).2.1

/-! ## C2 -/

/-- C2: `get_changed_files` is a total function into `List String` (the
`except Exception: continue` around every strategy and the final
`return []` mean no exception escapes, which the embedding reflects by its
type); moreover, whenever every strategy before the terminal single-commit
one raises or returns an empty list, the function returns exactly the value
the loop extracts from the terminal strategy: its list on success — even
when that list is empty — and `[]` when the terminal strategy itself
raises. -/
theorem get_changed_files_terminal (env : GitEnv)
    (h : ∀ o ∈ [try_merge_base env, try_three_dot env,
      try_two_dot env, try_github_api env, try_merge_commit env],
      failsOrEmpty o = true) :
    get_changed_files env = okOrElse (try_single_commit env) := by
  have hsplit : strategyList env =
      [try_merge_base env, try_three_dot env, try_two_dot env,
       try_github_api env, try_merge_commit env] ++ [try_single_commit env] := rfl
  rw [get_changed_files, hsplit, runChain_append_skip _ _ h]
  cases hts : try_single_commit env with
  | error e => rfl
  | ok files => cases files <;> rfl

/-- C2 witness: in `envAllFail` every strategy, including the terminal one,
raises; the resolver returns the empty list rather than propagating an
exception. -/
theorem get_changed_files_terminal_witness :
    get_changed_files envAllFail = okOrElse (try_single_commit envAllFail) :=
  get_changed_files_terminal envAllFail (by decide)

/-! ## C3 -/

/-- Whether a strategy outcome is a normal (non-raising) return. -/
def isOkOutcome : Except Unit (List String) → Bool
  | .ok _ => true
  | .error _ => false

/-- C3 counterexample: in `envAllEmpty`, strategy 1 (and likewise 2, 3
and 6) is applicable and completes without error, yet `get_changed_files`
returns the empty list — refuting the claim that a run with at least one
applicable, error-free strategy always yields a non-empty result. -/
theorem get_changed_files_empty_despite_ok :
    isOkOutcome (try_merge_base envAllEmpty) = true ∧
    get_changed_files envAllEmpty = [] := by decide

/-- C3 amended: `get_changed_files` returns the empty list exactly when
every one of the six strategies either raises or returns an empty list; a
strategy may complete without error and still contribute nothing, so an
applicable, error-free strategy does not guarantee a non-empty result. -/
theorem get_changed_files_eq_nil_iff (env : GitEnv) :
    get_changed_files env = [] ↔ ∀ o ∈ strategyList env, failsOrEmpty o = true :=
  runChain_eq_nil_iff (strategyList env)

/-- C3 amended witness: in `envAllEmpty` the resolver returns the empty
list, hence every strategy outcome there raises or is empty. -/
theorem get_changed_files_eq_nil_iff_witness :
    ∀ o ∈ strategyList envAllEmpty, failsOrEmpty o = true :=
  (get_changed_files_eq_nil_iff envAllEmpty).mp (by decide)

/-! ## C4 -/

/-- C4: with scope `"changed"`, `get_file_context` returns the fixed
no-changes sentinel when the resolved change set is empty, and otherwise a
single-line instruction whose scope part is exactly the resolved paths
joined by single spaces — each path once, in resolver order, as produced by
`String.intercalate " "`. -/
theorem get_file_context_changed (env : GitEnv) :
    get_file_context env "changed" =
      if get_changed_files env = [] then
        "No changed files detected. Analyze the current repository state."
      else
        "Focus ONLY on these files changed in this PR: " ++
          String.intercalate " " (get_changed_files env) := by
  unfold get_file_context
  rw [if_neg (by decide : ¬ ("changed" : String) = "all")]
  by_cases h : get_changed_files env = []
  · simp [h]
  · simp [h]

/-! ## C10 -/

theorem string_data_append (s t : String) : (s ++ t).data = s.data ++ t.data := rfl

theorem head?_append_left {α : Type} (p q : List α) (h : p ≠ []) :
    (p ++ q).head? = p.head? := by
  cases p with
  | nil => exact absurd rfl h
  | cons a t => rfl

theorem focus_text_ne_all_text (x : String) :
    "Focus ONLY on these files changed in this PR: " ++ x ≠
      "Analyze the entire codebase in this repository." := by
  intro h
  have h2 := congrArg String.data h
  rw [string_data_append] at h2
  have h3 := congrArg List.head? h2
  rw [head?_append_left _ _ (by decide)] at h3
  exact absurd h3 (by decide)

/-- C10: `get_file_context` branches only on equality with the exact string
`"all"`; for any other scope string (misspellings, the empty string, ...)
it behaves exactly as scope `"changed"` — consulting the resolver and
returning the changed-files or no-changes text — and never returns the
analyze-entire-codebase text. -/
theorem get_file_context_non_all (env : GitEnv) (scope : String)
    (h : scope ≠ "all") :
    get_file_context env scope = get_file_context env "changed" ∧
    get_file_context env scope ≠ "Analyze the entire codebase in this repository." := by
  constructor
  · unfold get_file_context
    rw [if_neg h, if_neg (by decide : ¬ ("changed" : String) = "all")]
  · unfold get_file_context
    rw [if_neg h]
    by_cases hc : get_changed_files env = []
    · rw [if_neg (not_not_intro hc)]
      decide
    · rw [if_pos hc]
      exact focus_text_ne_all_text _

/-- C10 witness: with a misspelled scope `"als"`, the function behaves as
scope `"changed"` and does not produce the whole-codebase text. -/
theorem get_file_context_non_all_witness :
    get_file_context envStrat2 "als" = get_file_context envStrat2 "changed" ∧
    get_file_context envStrat2 "als" ≠ "Analyze the entire codebase in this repository." :=
  get_file_context_non_all envStrat2 "als" (by decide)

/-! ## C5 -/

/-- A run of `main` with two rules requested, where the template of the
first rule (`security`) is missing and the template of the second rule
(`performance`) exists. -/
def envMissingRules : MainEnv :=
  { rules_arg := "[security, performance]"
    custom_prompt := ""
    agent := "claude"
    scope := "all"
    custom_files_arg := "[]"
    parseList := fun s =>
      if s = "[security, performance]" then ["security", "performance"] else []
    ruleTemplate := fun r => if r = "security" then none else some "RULE BODY"
    base_prompt := some "BASE"
    comment_prompt := some "COMMENT"
    customFile := fun _ => none
    stem := fun s => s
    agentResult := fun _ => "agent output"
    git := envAllFail }

/-- C5 counterexample: with rules `security` and `performance` requested,
the `security` template missing and the `performance` template present, the
run terminates via `sys.exit(1)` at the first rule — no textual failure
result is recorded under `security`, no agent is invoked, and processing
never reaches `performance` (whose rule would have succeeded).  The claim
that a missing rule template is caught per rule, recorded, and skipped is
therefore false. -/
theorem main_missing_rule_aborts :
    main_model envMissingRules = .exited 1 [] 0 := by decide

/-- C5 amended: a missing rule template is fatal, not per-item recoverable:
when `load_rule_prompt` raises `FileNotFoundError` for a (non-empty-named)
rule, the rule loop hits the dedicated `except FileNotFoundError` handler
and exits the process with code 1, recording nothing for that rule,
invoking no agent for it, and never processing the remaining rules.  (Other
exceptions inside the loop are the ones recorded as per-rule `Error:` results.) -/
theorem processRules_missing_template_exits (env : MainEnv)
    (base comment file_context rule : String) (rest : List String)
    (acc : List (String × String)) (calls : Nat)
    (hr : rule ≠ "") (hmiss : env.ruleTemplate rule = none) :
    processRules env base comment file_context (rule :: rest) acc calls =
      .exited 1 acc calls := by
  unfold processRules
  rw [if_neg hr, hmiss]

/-- C5 amended witness: the missing `security` template in
`envMissingRules` makes the rule loop exit immediately with code 1. -/
theorem processRules_missing_template_exits_witness :
    processRules envMissingRules "BASE" "COMMENT" "ctx"
      ["security", "performance"] [] 0 = .exited 1 [] 0 :=
  processRules_missing_template_exits envMissingRules "BASE" "COMMENT" "ctx"
    "security" ["performance"] [] 0 (by decide) rfl

/-! ## C6 -/

/-- C6 (code bug evaluation): for the `claude` agent — and identically for
`gemini`, `codex`, `amp` and `opencode` — a normal, successful invocation of
`execute_agent` leaves the temporary prompt file it created on disk (second
component `true`): the file is created before the per-agent branch, the
branch overwrites `temp_file_path` with `None`, and the `finally` cleanup
therefore never unlinks it.  Only for `cursor` is the file removed (second
component `false`). -/
theorem execute_agent_temp_file_leak :
    execute_agent "claude" "claude"
      { whichOk := true, outcome := .completed 0 "analysis done\n" "" } =
      ("analysis done", true) ∧
    execute_agent "cursor" "cursor-agent"
      { whichOk := true, outcome := .completed 0 "analysis done\n" "" } =
      ("analysis done", false) := by decide

/-! ## C7 -/

/-- C7: `main` accepts a custom prompt of exactly 5000 characters — the
length check passes and the run proceeds to the post-validation phase —
while a custom prompt of 5001 or more characters makes `main` call
`sys.exit(1)` with no results recorded and zero agent invocations. -/
theorem main_custom_prompt_limit (env : MainEnv) :
    (env.custom_prompt.length = 5000 →
      main_model env = main_after_validation env) ∧
    (env.custom_prompt.length ≥ 5001 →
      main_model env = .exited 1 [] 0) := by
  constructor
  · intro h
    have hne : env.custom_prompt ≠ "" := by
      intro he
      rw [he] at h
      simp at h
    unfold main_model
    rw [if_neg (by tauto), if_neg (by omega)]
  · intro h
    have hne : env.custom_prompt ≠ "" := by
      intro he
      rw [he] at h
      simp at h
    unfold main_model
    rw [if_neg (by tauto), if_pos (by omega)]

theorem string_mk_length (l : List Char) : (String.mk l).length = l.length := rfl

/-- A run of `main` whose custom prompt has exactly 5000 characters. -/
def envPrompt5000 : MainEnv :=
  { envMissingRules with
      rules_arg := "[]"
      parseList := fun _ => []
      custom_prompt := String.mk (List.replicate 5000 'a') }

/-- A run of `main` whose custom prompt has 5001 characters. -/
def envPrompt5001 : MainEnv :=
  { envPrompt5000 with custom_prompt := String.mk (List.replicate 5001 'a') }

/-- C7 witness: the 5000-character prompt passes validation and the run
proceeds; the 5001-character prompt exits with code 1, nothing recorded and
no agent invoked. -/
theorem main_custom_prompt_limit_witness :
    main_model envPrompt5000 = main_after_validation envPrompt5000 ∧
    main_model envPrompt5001 = .exited 1 [] 0 :=
  ⟨(main_custom_prompt_limit envPrompt5000).1
      (by rw [show envPrompt5000.custom_prompt = String.mk (List.replicate 5000 'a') from rfl,
        string_mk_length, List.length_replicate]),
   (main_custom_prompt_limit envPrompt5001).2
      (by rw [show envPrompt5001.custom_prompt = String.mk (List.replicate 5001 'a') from rfl,
        string_mk_length, List.length_replicate])⟩

/-! ## C8 -/

/-- C8: `add_result` appends exactly one `(rule, output)` record at the end
of the collection, preserving call order (first conjunct); the stored
output is never the empty string (second conjunct), because an empty output
is replaced by the warning sentinel, which begins with the warning marker
`⚠️ Warning` (third conjunct). -/
theorem add_result_spec (results : List (String × String))
    (rule_name output : String) :
    add_result results rule_name output =
      results ++ [(rule_name, if output = "" then warning_sentinel else output)] ∧
    (if output = "" then warning_sentinel else output) ≠ "" ∧
    (∃ rest, warning_sentinel = "⚠️ Warning" ++ rest) := by
  refine ⟨rfl, ?_, ?_⟩
  · by_cases h : output = ""
    · rw [if_pos h]
      decide
    · rw [if_neg h]
      exact h
  · exact ⟨": No analysis results were returned for this rule. This may indicate a processing error or timeout.",
      by decide⟩

/-! ## C9 -/

theorem dropWhile_head_false {p : Char → Bool} :
    ∀ (l : List Char) (x : Char) (xs : List Char),
      l.dropWhile p = x :: xs → p x = false := by
  intro l
  induction l with
  | nil =>
    intro x xs h
    simp [List.dropWhile] at h
  | cons a t ih =>
    intro x xs h
    by_cases hpa : p a = true
    · rw [show (a :: t).dropWhile p = t.dropWhile p by simp [List.dropWhile, hpa]] at h
      exact ih x xs h
    · simp only [Bool.not_eq_true] at hpa
      rw [show (a :: t).dropWhile p = a :: t by simp [List.dropWhile, hpa]] at h
      cases h
      exact hpa

theorem dropWhile_head?_false {p : Char → Bool} (l : List Char) (c : Char)
    (h : (l.dropWhile p).head? = some c) : p c = false := by
  cases hd : l.dropWhile p with
  | nil => rw [hd] at h; simp at h
  | cons a t =>
    rw [hd] at h
    simp at h
    rw [← h]
    exact dropWhile_head_false l a t hd

theorem dropWhile_suffix_decomp {p : Char → Bool} :
    ∀ l : List Char, ∃ t, l = t ++ l.dropWhile p := by
  intro l
  induction l with
  | nil => exact ⟨[], rfl⟩
  | cons a rest ih =>
    by_cases hpa : p a = true
    · obtain ⟨t, ht⟩ := ih
      refine ⟨a :: t, ?_⟩
      rw [show (a :: rest).dropWhile p = rest.dropWhile p by simp [List.dropWhile, hpa],
        List.cons_append]
      exact congrArg (fun m => a :: m) ht
    · simp only [Bool.not_eq_true] at hpa
      refine ⟨[], ?_⟩
      rw [show (a :: rest).dropWhile p = a :: rest by simp [List.dropWhile, hpa]]
      rfl

/-- A non-empty result of `stripChars` does not end with whitespace. -/
theorem stripChars_last_not_ws (l : List Char) (c : Char)
    (hc : (stripChars l).reverse.head? = some c) : c.isWhitespace = false := by
  have hrw : (stripChars l).reverse =
      ((l.dropWhile Char.isWhitespace).reverse).dropWhile Char.isWhitespace := by
    simp [stripChars]
  rw [hrw] at hc
  exact dropWhile_head?_false _ _ hc

/-- A non-empty result of `stripChars` does not start with whitespace. -/
theorem stripChars_head_not_ws (l : List Char) (c : Char)
    (hc : (stripChars l).head? = some c) : c.isWhitespace = false := by
  obtain ⟨t, ht⟩ :=
    dropWhile_suffix_decomp (p := Char.isWhitespace) (l.dropWhile Char.isWhitespace).reverse
  have hd2 : l.dropWhile Char.isWhitespace = stripChars l ++ t.reverse := by
    have h2 := congrArg List.reverse ht
    rw [List.reverse_reverse, List.reverse_append] at h2
    exact h2
  have hne : stripChars l ≠ [] := by
    intro h0
    rw [h0] at hc
    simp at hc
  have h3 : (l.dropWhile Char.isWhitespace).head? = some c := by
    rw [hd2, head?_append_left _ _ hne]
    exact hc
  exact dropWhile_head?_false _ _ h3

/-- `true` when the optional edge character of an entry is absent or not
whitespace. -/
def noEdgeWs : Option Char → Bool
  | none => true
  | some c => !c.isWhitespace

/-- A clean change-set entry: non-empty, and neither its first nor its last
character is whitespace. -/
def cleanEntry (x : String) : Bool :=
  (!(x == "")) && noEdgeWs x.toList.head? && noEdgeWs x.toList.reverse.head?

theorem splitStrip_mem (s x : String) (hx : x ∈ splitStrip s) :
    cleanEntry x = true := by
  unfold splitStrip at hx
  rw [List.mem_filter] at hx
  obtain ⟨hmem, hpred⟩ := hx
  rw [List.mem_map] at hmem
  obtain ⟨l, _, rfl⟩ := hmem
  have hne : String.mk (stripChars l) ≠ "" := by simpa using hpred
  unfold cleanEntry
  have h1 : (!(String.mk (stripChars l) == "")) = true := by
    simp [hne]
  have h2 : noEdgeWs (String.mk (stripChars l)).toList.head? = true := by
    cases hh : (stripChars l).head? with
    | none => simp [noEdgeWs, hh]
    | some c =>
      simp [noEdgeWs, hh]
      exact stripChars_head_not_ws l c hh
  have h3 : noEdgeWs (String.mk (stripChars l)).toList.reverse.head? = true := by
    cases hh : (stripChars l).reverse.head? with
    | none => simp [noEdgeWs, hh]
    | some c =>
      simp [noEdgeWs, hh]
      exact stripChars_last_not_ws l c hh
  rw [h1, h2, h3]
  rfl

theorem runChain_mem (outs : List (Except Unit (List String))) (x : String)
    (hx : x ∈ runChain outs) : ∃ fs, Except.ok fs ∈ outs ∧ x ∈ fs := by
  induction outs with
  | nil => simp [runChain] at hx
  | cons o rest ih =>
    cases o with
    | error e =>
      obtain ⟨fs, h1, h2⟩ := ih hx
      exact ⟨fs, List.mem_cons_of_mem _ h1, h2⟩
    | ok files =>
      cases files with
      | nil =>
        obtain ⟨fs, h1, h2⟩ := ih hx
        exact ⟨fs, List.mem_cons_of_mem _ h1, h2⟩
      | cons a t =>
        exact ⟨a :: t, List.mem_cons_self _ _, hx⟩

theorem mapChecked_ok (r : CmdResult) (fs : List String)
    (h : (runChecked r).map splitStrip = .ok fs) : fs = splitStrip r.stdout := by
  unfold runChecked at h
  by_cases hrc : r.returncode = 0
  · rw [if_pos hrc] at h
    simp [Except.map] at h
    exact h.symm
  · rw [if_neg hrc] at h
    simp [Except.map] at h

/-- Every normal return of a strategy is the split-strip-filter of some
command output. -/
theorem strategy_ok_form (env : GitEnv) (o : Except Unit (List String))
    (ho : o ∈ strategyList env) (fs : List String) (hfs : o = Except.ok fs) :
    ∃ s, fs = splitStrip s := by
  subst hfs
  simp only [strategyList, List.mem_cons, List.not_mem_nil, or_false] at ho
  rcases ho with h | h | h | h | h | h
  · unfold try_merge_base at h
    by_cases hrc : env.mergeBase.returncode = 0
    · rw [if_pos hrc] at h
      exact ⟨env.diffMergeBase.stdout, mapChecked_ok _ _ h.symm⟩
    · rw [if_neg hrc] at h
      simp at h
  · exact ⟨env.diffThreeDot.stdout, mapChecked_ok _ _ h.symm⟩
  · exact ⟨env.diffTwoDot.stdout, mapChecked_ok _ _ h.symm⟩
  · unfold try_github_api at h
    by_cases hc : (envFalsy env.prNumber || envFalsy env.repo) = true
    · rw [if_pos hc] at h
      simp at h
    · rw [if_neg hc] at h
      exact ⟨env.ghApi.stdout, mapChecked_ok _ _ h.symm⟩
  · unfold try_merge_commit at h
    cases hsc : runChecked env.showHead with
    | error e =>
      rw [hsc] at h
      simp at h
    | ok out =>
      rw [hsc] at h
      dsimp only at h
      by_cases hp : wsTokenCount (stripChars out.toList) false > 1
      · rw [if_pos hp] at h
        exact ⟨env.diffTree.stdout, mapChecked_ok _ _ h.symm⟩
      · rw [if_neg hp] at h
        simp at h
  · exact ⟨env.diffSingle.stdout, mapChecked_ok _ _ h.symm⟩

/-- C9: every string in any list returned by `get_changed_files` —
whichever strategy produced it — is a clean entry: non-empty, with neither
a leading nor a trailing whitespace character, because every strategy
splits its command output on newlines, strips each piece, and filters out
pieces that are empty after stripping. -/
theorem get_changed_files_entries_clean (env : GitEnv) (x : String)
    (hx : x ∈ get_changed_files env) : cleanEntry x = true := by
  obtain ⟨fs, hmem, hxfs⟩ := runChain_mem _ _ hx
  obtain ⟨s, rfl⟩ := strategy_ok_form env _ hmem fs rfl
  exact splitStrip_mem s x hxfs

/-- C9 witness: the entry `a.py` of the resolved list in `envStrat2` is a
clean entry. -/
theorem get_changed_files_entries_clean_witness : cleanEntry "a.py" = true :=
  get_changed_files_entries_clean envStrat2 "a.py" (by decide)

end RunPrompts
